import Mathlib

/-!
# Verification of fabio's listener orchestration and route synchronization core

Shallow embedding of `src/main.go` (the `watchBackend` route-synchronizer loop)
and `src/listen.go` (`startListeners`, `listenAndServeTCP`'s accept loop,
`tcpKeepAliveListener.Accept`, and the `quit` shutdown broadcast).

Conventions:
* Go strings become Lean `String`; the routing snapshot type (`route.Table`)
  is an abstract type parameter `α`, and `route.ParseString` an abstract
  parameter `parse : String → Option α` (`none` = parse error).
* External calls are instrumented in the state (`pubs`, `attempts`, `table`)
  or turned into trace events, so that "a snapshot was published" and
  "a parse was attempted" are observable facts of the embedding.
* `go f(x)` (spawning a goroutine) becomes a trace event recording the spawn.
-/

namespace Fabio

/-! ## Route Synchronizer (`watchBackend`, src/main.go lines 216-248)

```go
func watchBackend() {
    var ( last string; svccfg string; mancfg string )
    svc := registry.Default.WatchServices()
    man := registry.Default.WatchManual()
    for {
        select {
        case svccfg = <-svc:
        case mancfg = <-man:
        }
        // manual config overrides service config; order matters
        next := svccfg + "\n" + mancfg
        if next == last { continue }
        t, err := route.ParseString(next)
        if err != nil { log.Printf("[WARN] %s", err); continue }
        route.SetTable(t)
        last = next
    }
}
```
-/

/-- An emission on one of the two configuration streams: `svc` for the
service-discovery stream (`WatchServices`), `man` for the manual-override
stream (`WatchManual`). -/
inductive Event where
  | svc (s : String)
  | man (s : String)
deriving DecidableEq, Repr

/-- The state of the `watchBackend` loop. `last`, `svccfg`, `mancfg` are the
loop's three local variables (Go zero value `""`); `table` is the currently
published routing snapshot (the effect of `route.SetTable`), `pubs` the list
of merged texts published so far in order, and `attempts` the number of
`route.ParseString` calls — the latter three instrument the external calls. -/
structure SyncState (α : Type) where
  last : String := ""
  svccfg : String := ""
  mancfg : String := ""
  table : Option α := none
  pubs : List String := []
  attempts : Nat := 0
deriving DecidableEq, Repr

/-- The initial state of the loop: all three string variables are `""`
(Go zero values), nothing published yet. -/
def initSync (α : Type) : SyncState α := {}

/-- The `select` statement: record the emission, overwriting only the slot
of the stream that fired. -/
def record {α : Type} (st : SyncState α) : Event → SyncState α
  | .svc s => { st with svccfg := s }
  | .man s => { st with mancfg := s }

/-- `next := svccfg + "\n" + mancfg` — the merged configuration text,
manual after service. -/
def mergedOf {α : Type} (st : SyncState α) : String :=
  st.svccfg ++ "\n" ++ st.mancfg

/-- One iteration of the `watchBackend` loop body on emission `e`:
record the emission, compute the merged text, suppress if byte-identical to
`last`, otherwise parse; on parse error continue without further changes;
on success publish the table and record the merged text as `last`. -/
def watchBackendStep {α : Type} (parse : String → Option α) (st : SyncState α)
    (e : Event) : SyncState α :=
  let st1 := record st e
  let next := mergedOf st1
  if next = st1.last then st1
  else
    match parse next with
    | none => { st1 with attempts := st1.attempts + 1 }
    | some t =>
        { st1 with
          attempts := st1.attempts + 1
          table := some t
          pubs := st1.pubs ++ [next]
          last := next }

/-- Run the loop over a finite sequence of emissions. -/
def watchBackendRun {α : Type} (parse : String → Option α) (st : SyncState α)
    (es : List Event) : SyncState α :=
  es.foldl (watchBackendStep parse) st

/-- The last value emitted on the service stream in `es`, with default `d`. -/
def lastSvc (d : String) : List Event → String
  | [] => d
  | .svc s :: es => lastSvc s es
  | .man _ :: es => lastSvc d es

/-- The last value emitted on the manual stream in `es`, with default `d`. -/
def lastMan (d : String) : List Event → String
  | [] => d
  | .svc _ :: es => lastMan d es
  | .man s :: es => lastMan s es

/-! ### Basic lemmas about one step -/

theorem record_last {α : Type} (st : SyncState α) (e : Event) :
    (record st e).last = st.last := by
  cases e <;> rfl

theorem record_table {α : Type} (st : SyncState α) (e : Event) :
    (record st e).table = st.table := by
  cases e <;> rfl

theorem record_pubs {α : Type} (st : SyncState α) (e : Event) :
    (record st e).pubs = st.pubs := by
  cases e <;> rfl

theorem record_attempts {α : Type} (st : SyncState α) (e : Event) :
    (record st e).attempts = st.attempts := by
  cases e <;> rfl

/-- The step never touches the two slot variables beyond `record`. -/
theorem watchBackendStep_svccfg {α : Type} (parse : String → Option α)
    (st : SyncState α) (e : Event) :
    (watchBackendStep parse st e).svccfg = (record st e).svccfg := by
  unfold watchBackendStep
  by_cases h : mergedOf (record st e) = (record st e).last
  · simp [h]
  · simp only [h, if_neg h]
    cases parse (mergedOf (record st e)) <;> rfl

theorem watchBackendStep_mancfg {α : Type} (parse : String → Option α)
    (st : SyncState α) (e : Event) :
    (watchBackendStep parse st e).mancfg = (record st e).mancfg := by
  unfold watchBackendStep
  by_cases h : mergedOf (record st e) = (record st e).last
  · simp [h]
  · simp only [h, if_neg h]
    cases parse (mergedOf (record st e)) <;> rfl

/-- Retention of the service slot over a whole run. -/
theorem watchBackendRun_svccfg {α : Type} (parse : String → Option α)
    (es : List Event) : ∀ st : SyncState α,
    (watchBackendRun parse st es).svccfg = lastSvc st.svccfg es := by
  induction es with
  | nil => intro st; rfl
  | cons e es ih =>
      intro st
      cases e with
      | svc s =>
          show (watchBackendRun parse (watchBackendStep parse st (.svc s)) es).svccfg = _
          rw [ih, watchBackendStep_svccfg]
          rfl
      | man s =>
          show (watchBackendRun parse (watchBackendStep parse st (.man s)) es).svccfg = _
          rw [ih, watchBackendStep_svccfg]
          rfl

/-- Retention of the manual slot over a whole run. -/
theorem watchBackendRun_mancfg {α : Type} (parse : String → Option α)
    (es : List Event) : ∀ st : SyncState α,
    (watchBackendRun parse st es).mancfg = lastMan st.mancfg es := by
  induction es with
  | nil => intro st; rfl
  | cons e es ih =>
      intro st
      cases e with
      | svc s =>
          show (watchBackendRun parse (watchBackendStep parse st (.svc s)) es).mancfg = _
          rw [ih, watchBackendStep_mancfg]
          rfl
      | man s =>
          show (watchBackendRun parse (watchBackendStep parse st (.man s)) es).mancfg = _
          rw [ih, watchBackendStep_mancfg]
          rfl

/-- C1: In the Route Synchronizer loop, after any sequence of stream
emissions, the merged configuration text used for parsing equals the
last-seen service-discovery text, then a newline, then the last-seen
manual-override text; an emission on one stream overwrites only that
stream's slot while the other stream's last-seen value is retained
unchanged. -/
theorem C1_merge_precedence {α : Type} (parse : String → Option α)
    (es : List Event) :
    (watchBackendRun parse (initSync α) es).svccfg = lastSvc "" es ∧
    (watchBackendRun parse (initSync α) es).mancfg = lastMan "" es ∧
    mergedOf (watchBackendRun parse (initSync α) es) =
      lastSvc "" es ++ "\n" ++ lastMan "" es := by
  refine ⟨watchBackendRun_svccfg parse es _, watchBackendRun_mancfg parse es _, ?_⟩
  unfold mergedOf
  rw [watchBackendRun_svccfg parse es, watchBackendRun_mancfg parse es]
  rfl

/-- Witness for C1: service emits `S1`, manual emits `M1`, then manual emits
`M2` alone; the merged text is `S1 ++ "\n" ++ M2` (service value retained). -/
theorem C1_merge_precedence_witness :
    mergedOf (watchBackendRun (fun s => some s) (initSync String)
      [.svc "S1", .man "M1", .man "M2"]) = "S1" ++ "\n" ++ "M2" :=
  (C1_merge_precedence (fun s => some s)
    [.svc "S1", .man "M1", .man "M2"]).2.2

/-! ### Case analysis of one loop iteration -/

/-- No-op suppression branch: `next == last` skips parse and publish. -/
theorem watchBackendStep_noop {α : Type} (parse : String → Option α)
    (st : SyncState α) (e : Event)
    (h : mergedOf (record st e) = (record st e).last) :
    watchBackendStep parse st e = record st e := by
  unfold watchBackendStep
  simp [h]

/-- Parse-failure branch: only the attempt counter moves. -/
theorem watchBackendStep_parseFail {α : Type} (parse : String → Option α)
    (st : SyncState α) (e : Event)
    (h : mergedOf (record st e) ≠ (record st e).last)
    (hp : parse (mergedOf (record st e)) = none) :
    watchBackendStep parse st e =
      { record st e with attempts := (record st e).attempts + 1 } := by
  unfold watchBackendStep
  simp [h, hp]

/-- Publish branch: the parsed table is published, the merged text appended
to the publication history and recorded as the new baseline. -/
theorem watchBackendStep_publish {α : Type} (parse : String → Option α)
    (st : SyncState α) (e : Event) (t : α)
    (h : mergedOf (record st e) ≠ (record st e).last)
    (hp : parse (mergedOf (record st e)) = some t) :
    watchBackendStep parse st e =
      { record st e with
        attempts := (record st e).attempts + 1
        table := some t
        pubs := (record st e).pubs ++ [mergedOf (record st e)]
        last := mergedOf (record st e) } := by
  unfold watchBackendStep
  simp [h, hp]

/-- C2: If the newly computed merged text is byte-identical to the last
successfully merged text, no parse and no snapshot publication happen and
the loop returns to waiting: producing merged text `A` then `A` again yields
exactly one publication, while `A` then `B` with `A ≠ B` (and `B` parseable)
yields exactly two, in that order. -/
theorem C2_idempotent_suppression {α : Type} (parse : String → Option α)
    (st : SyncState α) (e1 e2 : Event) (a : α)
    (hA : mergedOf (record st e1) ≠ (record st e1).last)
    (hpa : parse (mergedOf (record st e1)) = some a) :
    (watchBackendStep parse st e1).pubs = st.pubs ++ [mergedOf (record st e1)] ∧
    (mergedOf (record (watchBackendStep parse st e1) e2) = mergedOf (record st e1) →
      watchBackendStep parse (watchBackendStep parse st e1) e2 =
        record (watchBackendStep parse st e1) e2 ∧
      (watchBackendStep parse (watchBackendStep parse st e1) e2).pubs =
        st.pubs ++ [mergedOf (record st e1)] ∧
      (watchBackendStep parse (watchBackendStep parse st e1) e2).attempts =
        (watchBackendStep parse st e1).attempts) ∧
    (∀ b : α,
      mergedOf (record (watchBackendStep parse st e1) e2) ≠ mergedOf (record st e1) →
      parse (mergedOf (record (watchBackendStep parse st e1) e2)) = some b →
      (watchBackendStep parse (watchBackendStep parse st e1) e2).pubs =
        st.pubs ++ [mergedOf (record st e1),
                    mergedOf (record (watchBackendStep parse st e1) e2)]) := by
  have hstep := watchBackendStep_publish parse st e1 a hA hpa
  have hlast1 : (watchBackendStep parse st e1).last = mergedOf (record st e1) := by
    rw [hstep]
  have hpubs1 : (watchBackendStep parse st e1).pubs =
      st.pubs ++ [mergedOf (record st e1)] := by
    rw [hstep]; simp [record_pubs]
  refine ⟨hpubs1, ?_, ?_⟩
  · intro hBA
    have hcond : mergedOf (record (watchBackendStep parse st e1) e2) =
        (record (watchBackendStep parse st e1) e2).last := by
      rw [record_last, hlast1, hBA]
    have hnoop := watchBackendStep_noop parse (watchBackendStep parse st e1) e2 hcond
    refine ⟨hnoop, ?_, ?_⟩
    · rw [hnoop, record_pubs, hpubs1]
    · rw [hnoop, record_attempts]
  · intro b hBA hpb
    have hcond : mergedOf (record (watchBackendStep parse st e1) e2) ≠
        (record (watchBackendStep parse st e1) e2).last := by
      rw [record_last, hlast1]; exact hBA
    have hpub2 := watchBackendStep_publish parse (watchBackendStep parse st e1) e2 b hcond hpb
    rw [hpub2]
    simp [record_pubs, hpubs1]

/-- Witness for C2: from the initial state, service emits `"a"` twice, so the
merged text `"a\n"` is produced twice; exactly one publication results and
the second iteration performs no parse. -/
theorem C2_idempotent_suppression_witness :
    (watchBackendStep (fun s => some s)
        (watchBackendStep (fun s => some s) (initSync String) (.svc "a"))
        (.svc "a")).pubs = [] ++ ["a" ++ "\n" ++ ""] ∧
    (watchBackendStep (fun s => some s)
        (watchBackendStep (fun s => some s) (initSync String) (.svc "a"))
        (.svc "a")).attempts = 1 := by
  have h := C2_idempotent_suppression (fun s => some s) (initSync String)
    (.svc "a") (.svc "a") ("a" ++ "\n" ++ "") (by decide) rfl
  have h2 := h.2.1 rfl
  refine ⟨h2.2.1, ?_⟩
  rw [h2.2.2]
  rfl

/-- C3: when parsing a merged configuration text fails, the currently
published snapshot is unchanged, the last-merged baseline is not updated,
the publication history is unchanged (the loop merely moves on), and a
subsequent valid update still parses and publishes successfully. The loop
does not terminate: `watchBackendStep` is a total function returning the state for
the next iteration. -/
theorem C3_parse_failure_recovery {α : Type} (parse : String → Option α)
    (st : SyncState α) (e : Event)
    (hA : mergedOf (record st e) ≠ (record st e).last)
    (hp : parse (mergedOf (record st e)) = none) :
    (watchBackendStep parse st e).table = st.table ∧
    (watchBackendStep parse st e).last = st.last ∧
    (watchBackendStep parse st e).pubs = st.pubs ∧
    (watchBackendStep parse st e).attempts = st.attempts + 1 ∧
    (∀ (e' : Event) (t : α),
      mergedOf (record (watchBackendStep parse st e) e') ≠
        (record (watchBackendStep parse st e) e').last →
      parse (mergedOf (record (watchBackendStep parse st e) e')) = some t →
      (watchBackendStep parse (watchBackendStep parse st e) e').table = some t ∧
      (watchBackendStep parse (watchBackendStep parse st e) e').pubs =
        st.pubs ++ [mergedOf (record (watchBackendStep parse st e) e')] ∧
      (watchBackendStep parse (watchBackendStep parse st e) e').last =
        mergedOf (record (watchBackendStep parse st e) e')) := by
  have hstep := watchBackendStep_parseFail parse st e hA hp
  refine ⟨?_, ?_, ?_, ?_, ?_⟩
  · rw [hstep]; simp [record_table]
  · rw [hstep]; simp [record_last]
  · rw [hstep]; simp [record_pubs]
  · rw [hstep]; simp [record_attempts]
  · intro e' t hA' hp'
    have hpub := watchBackendStep_publish parse (watchBackendStep parse st e) e' t hA' hp'
    rw [hpub]
    refine ⟨rfl, ?_, rfl⟩
    have : (watchBackendStep parse st e).pubs = st.pubs := by
      rw [hstep]; simp [record_pubs]
    simp [record_pubs, this]

/-- Witness for C3: a parser that rejects `"a\n"` but accepts `"b\n"`;
after the failing update `svc "a"` the table is still unpublished and the
baseline still `""`, and the subsequent update `svc "b"` publishes. -/
theorem C3_parse_failure_recovery_witness :
    ((watchBackendStep (fun s => if s = "a" ++ "\n" ++ "" then none else some s)
        (initSync String) (.svc "a")).table = none ∧
     (watchBackendStep (fun s => if s = "a" ++ "\n" ++ "" then none else some s)
        (initSync String) (.svc "a")).last = "" ∧
     (watchBackendStep (fun s => if s = "a" ++ "\n" ++ "" then none else some s)
        (watchBackendStep (fun s => if s = "a" ++ "\n" ++ "" then none else some s)
          (initSync String) (.svc "a"))
        (.svc "b")).table = some ("b" ++ "\n" ++ "")) := by
  have h := C3_parse_failure_recovery
    (fun s => if s = "a" ++ "\n" ++ "" then none else some s)
    (initSync String) (.svc "a") (by decide) (by decide)
  have h2 := h.2.2.2.2 (.svc "b") ("b" ++ "\n" ++ "")
  refine ⟨h.1, h.2.1, ?_⟩
  exact (h2 (by decide) (by decide)).1

/-- C9 (implicit): the very first stream emission is never suppressed as a
no-op: every computed merged text contains the newline separator, so it can
never equal the initial empty baseline, and the first event always leads to
exactly one parse attempt. -/
theorem C9_first_event_always_parses {α : Type} (parse : String → Option α)
    (e : Event) :
    ('\n' ∈ (mergedOf (record (initSync α) e)).data) ∧
    mergedOf (record (initSync α) e) ≠ (initSync α).last ∧
    (watchBackendStep parse (initSync α) e).attempts = 1 := by
  have hmem : '\n' ∈ (mergedOf (record (initSync α) e)).data := by
    cases e with
    | svc s => simp [mergedOf, record, initSync, String.data_append]
    | man s => simp [mergedOf, record, initSync, String.data_append]
  have hne : mergedOf (record (initSync α) e) ≠ (initSync α).last := by
    intro h
    rw [h] at hmem
    simp [initSync] at hmem
  refine ⟨hmem, hne, ?_⟩
  have hlast : (record (initSync α) e).last = (initSync α).last :=
    record_last _ e
  cases hp : parse (mergedOf (record (initSync α) e)) with
  | none =>
      rw [watchBackendStep_parseFail parse _ e (by rw [hlast]; exact hne) hp]
      simp [record_attempts, initSync]
  | some t =>
      rw [watchBackendStep_publish parse _ e t (by rw [hlast]; exact hne) hp]
      simp [record_attempts, initSync]

/-! ## Listener orchestration (`startListeners`, src/listen.go lines 47-69)

```go
func startListeners(listen []config.Listen, wait time.Duration, h http.Handler, tcph proxy.TCPProxy) {
    for _, l := range listen {
        switch l.Proto {
        case "tcp+sni":
            go listenAndServeTCP(l, tcph)
        case "http", "https":
            go listenAndServeHTTP(l, h)
        default:
            panic("invalid protocol: " + l.Proto)
        }
    }
    <-quit
    proxy.Shutdown()
    log.Printf("[INFO] Graceful shutdown over %s", wait)
    time.Sleep(wait)
    log.Print("[INFO] Down")
}
```
The function is embedded as a trace of the externally visible actions it
performs, in program order, paired with an optional panic message; after a
panic no further action of the trace occurs. -/

/-- One entry of the `Listen` configuration list (the fields the core
consults: protocol tag and bind address). -/
structure Listen where
  proto : String
  addr : String
deriving DecidableEq, Repr

/-- Externally visible actions of `startListeners`, in program order.
`spawnTCP l` / `spawnHTTP l` record `go listenAndServeTCP(l, tcph)` /
`go listenAndServeHTTP(l, h)`; `waitQuit` is `<-quit`; `shutdownRouting` is
`proxy.Shutdown()`; `sleepGrace d` is `time.Sleep(wait)`. -/
inductive OEvent where
  | spawnTCP (l : Listen)
  | spawnHTTP (l : Listen)
  | waitQuit
  | shutdownRouting
  | sleepGrace (d : Nat)
deriving DecidableEq, Repr

/-- The `switch l.Proto` dispatch: the goroutine spawned for a listener
configuration, or `none` when the protocol tag hits the panicking default
case. -/
def goSpawn (l : Listen) : Option OEvent :=
  match l.proto with
  | "tcp+sni" => some (.spawnTCP l)
  | "http" => some (.spawnHTTP l)
  | "https" => some (.spawnHTTP l)
  | _ => none

/-- The `for _, l := range listen` loop: spawn a goroutine per entry in
order, stopping with a panic at the first entry with an unknown protocol
tag. Returns the spawn events that happened and the optional panic
message. -/
def startLoop : List Listen → List OEvent × Option String
  | [] => ([], none)
  | l :: rest =>
      match goSpawn l with
      | some ev =>
          let r := startLoop rest
          (ev :: r.1, r.2)
      | none => ([], some ("invalid protocol: " ++ l.proto))

/-- `startListeners`: run the spawn loop; if it panicked the panic
propagates and nothing further happens; otherwise block on the shutdown
signal, disable routing, and sleep for the grace duration, in this order. -/
def startListeners (listen : List Listen) (wait : Nat) :
    List OEvent × Option String :=
  match startLoop listen with
  | (evs, some msg) => (evs, some msg)
  | (evs, none) =>
      (evs ++ [.waitQuit, .shutdownRouting, .sleepGrace wait], none)

/-- A protocol tag the `switch` accepts. -/
def validProto (p : String) : Prop :=
  p = "tcp+sni" ∨ p = "http" ∨ p = "https"

instance (p : String) : Decidable (validProto p) := by
  unfold validProto
  infer_instance

theorem goSpawn_isSome_of_valid {l : Listen} (h : validProto l.proto) :
    ∃ ev, goSpawn l = some ev := by
  rcases h with h | h | h
  · exact ⟨.spawnTCP l, by unfold goSpawn; rw [h]; rfl⟩
  · exact ⟨.spawnHTTP l, by unfold goSpawn; rw [h]; rfl⟩
  · exact ⟨.spawnHTTP l, by unfold goSpawn; rw [h]; rfl⟩

/-- When every entry has a valid protocol, the loop spawns exactly the
goroutines `goSpawn` prescribes, one per entry in order, and does not
panic. -/
theorem startLoop_of_valid (listen : List Listen)
    (h : ∀ l ∈ listen, validProto l.proto) :
    startLoop listen = (listen.filterMap goSpawn, none) := by
  induction listen with
  | nil => rfl
  | cons l rest ih =>
      obtain ⟨ev, hev⟩ := goSpawn_isSome_of_valid (h l (by simp))
      have hrest := ih (fun x hx => h x (by simp [hx]))
      unfold startLoop
      rw [hev, hrest]
      simp [List.filterMap_cons, hev]

/-- C7: `startListeners` starts one listener goroutine per configuration
entry (concurrently, i.e. without waiting for any of them), then blocks on
the shutdown signal; on firing it disables routing, then sleeps for exactly
the configured grace duration — unconditionally, with no tracking of
handler completion (the `sleepGrace` action depends only on `wait`) — and
then returns without panic. -/
theorem C7_orchestrator_order (listen : List Listen) (wait : Nat)
    (h : ∀ l ∈ listen, validProto l.proto) :
    startListeners listen wait =
      (listen.filterMap goSpawn ++
        [.waitQuit, .shutdownRouting, .sleepGrace wait], none) ∧
    (listen.filterMap goSpawn).length = listen.length := by
  constructor
  · unfold startListeners
    rw [startLoop_of_valid listen h]
  · induction listen with
    | nil => rfl
    | cons l rest ih =>
        obtain ⟨ev, hev⟩ := goSpawn_isSome_of_valid (h l (by simp))
        have := ih (fun x hx => h x (by simp [hx]))
        simp [List.filterMap_cons, hev, this]

/-- Witness for C7: two valid entries produce two spawns followed by the
wait/shutdown/sleep tail. -/
theorem C7_orchestrator_order_witness :
    startListeners [⟨"http", ":80"⟩, ⟨"tcp+sni", ":443"⟩] 5 =
      ([.spawnHTTP ⟨"http", ":80"⟩, .spawnTCP ⟨"tcp+sni", ":443"⟩,
        .waitQuit, .shutdownRouting, .sleepGrace 5], none) :=
  (C7_orchestrator_order [⟨"http", ":80"⟩, ⟨"tcp+sni", ":443"⟩] 5
    (by decide)).1

/-- Counterexample to C6 as stated: with the configuration list
`[{proto := "http"}, {proto := "bogus"}]` the unknown tag does panic, but
the listener goroutine for the first entry has already been started before
the panic — so it is false that no listener for any entry of the list is
started when an unknown tag is present. -/
theorem C6_counterexample :
    startListeners [⟨"http", ":80"⟩, ⟨"bogus", ":81"⟩] 0 =
      ([.spawnHTTP ⟨"http", ":80"⟩], some "invalid protocol: bogus") ∧
    (startListeners [⟨"http", ":80"⟩, ⟨"bogus", ":81"⟩] 0).1 ≠ [] := by
  constructor
  · rfl
  · decide

/-- C6 (amended): a listener configuration whose protocol tag is outside
`{http, https, tcp+sni}` makes `startListeners` panic with
`"invalid protocol: " ++ tag` when its entry is reached; no listener is
started for that entry or any later one, and the orchestrator never
reaches the wait/shutdown phase — but listeners for the valid entries
earlier in the list have already been started. -/
theorem C6_unknown_proto_panics (pre post : List Listen) (l : Listen)
    (wait : Nat) (hpre : ∀ x ∈ pre, validProto x.proto)
    (hl : ¬ validProto l.proto) :
    startListeners (pre ++ l :: post) wait =
      (pre.filterMap goSpawn, some ("invalid protocol: " ++ l.proto)) := by
  have hspawn : goSpawn l = none := by
    unfold validProto at hl
    unfold goSpawn
    split
    next h => exact absurd (Or.inl h) hl
    next h => exact absurd (Or.inr (Or.inl h)) hl
    next h => exact absurd (Or.inr (Or.inr h)) hl
    next => rfl
  have hloop : startLoop (pre ++ l :: post) =
      (pre.filterMap goSpawn, some ("invalid protocol: " ++ l.proto)) := by
    induction pre with
    | nil =>
        show startLoop (l :: post) = _
        unfold startLoop
        rw [hspawn]
        rfl
    | cons x rest ih =>
        obtain ⟨ev, hev⟩ := goSpawn_isSome_of_valid (hpre x (by simp))
        have := ih (fun y hy => hpre y (by simp [hy]))
        show startLoop (x :: (rest ++ l :: post)) = _
        unfold startLoop
        rw [hev, this]
        simp [List.filterMap_cons, hev]
  unfold startListeners
  rw [hloop]

/-- Witness for the amended C6: one valid entry, then a bogus one; the
valid entry's goroutine is spawned, the panic names the bogus tag. -/
theorem C6_unknown_proto_panics_witness :
    startListeners [⟨"http", ":80"⟩, ⟨"bogus", ":81"⟩] 7 =
      ([.spawnHTTP ⟨"http", ":80"⟩], some "invalid protocol: bogus") := by
  have h := C6_unknown_proto_panics [⟨"http", ":80"⟩] []
    ⟨"bogus", ":81"⟩ 7 (by decide) (by decide)
  simpa using h

/-! ## Keep-Alive Socket Wrapper (`tcpKeepAliveListener.Accept`,
src/listen.go lines 173-185)

```go
func (ln tcpKeepAliveListener) Accept() (c net.Conn, err error) {
    tc, err := ln.AcceptTCP()
    if err != nil { return }
    if err = tc.SetKeepAlive(true); err != nil { return }
    if err = tc.SetKeepAlivePeriod(3 * time.Minute); err != nil { return }
    return tc, nil
}
```
Note the named return values: on every early `return` the named result `c`
still holds its zero value `nil`, so an option-setting failure returns
`(nil, err)` even though the connection was accepted. The embedding takes
`AcceptTCP` and the two setsockopt calls as parameters: `none` from a
setter means success, `some e` the error it returned. -/

/-- An accepted TCP connection (abstract token). -/
structure TCPConn where
  id : Nat
deriving DecidableEq, Repr

/-- `3 * time.Minute` in nanoseconds (Go `time.Duration` units). -/
def keepAlivePeriodNs : Nat := 3 * 60 * 1000000000

/-- `tcpKeepAliveListener.Accept`, returning the pair of named results
`(c, err)`. -/
def tcpKeepAliveAccept (acceptTCP : Except String TCPConn)
    (setKeepAlive : TCPConn → Bool → Option String)
    (setKeepAlivePeriod : TCPConn → Nat → Option String) :
    Option TCPConn × Option String :=
  match acceptTCP with
  | .error e => (none, some e)
  | .ok tc =>
      match setKeepAlive tc true with
      | some e => (none, some e)
      | none =>
          match setKeepAlivePeriod tc keepAlivePeriodNs with
          | some e => (none, some e)
          | none => (some tc, none)

/-- `SetKeepAlive` fails: the early `return` hands back `(nil, err)`. -/
theorem tcpKeepAliveAccept_ka_fail (setKA : TCPConn → Bool → Option String)
    (setKAP : TCPConn → Nat → Option String) (tc : TCPConn) (e : String)
    (hka : setKA tc true = some e) :
    tcpKeepAliveAccept (.ok tc) setKA setKAP = (none, some e) := by
  unfold tcpKeepAliveAccept
  simp [hka]

/-- `SetKeepAlivePeriod` fails: the early `return` hands back `(nil, err)`. -/
theorem tcpKeepAliveAccept_kap_fail (setKA : TCPConn → Bool → Option String)
    (setKAP : TCPConn → Nat → Option String) (tc : TCPConn) (e : String)
    (hka : setKA tc true = none)
    (hkap : setKAP tc keepAlivePeriodNs = some e) :
    tcpKeepAliveAccept (.ok tc) setKA setKAP = (none, some e) := by
  unfold tcpKeepAliveAccept
  simp [hka, hkap]

/-- C10 (implicit): the keep-alive wrapper's `Accept` returns a non-nil
connection iff it returns a nil error; when accepting succeeds but setting
either keep-alive option fails, it returns a nil connection together with
that error — the accepted connection is not handed to the caller. -/
theorem C10_accept_conn_iff_no_error (acceptTCP : Except String TCPConn)
    (setKA : TCPConn → Bool → Option String)
    (setKAP : TCPConn → Nat → Option String) :
    ((tcpKeepAliveAccept acceptTCP setKA setKAP).1.isSome ↔
      (tcpKeepAliveAccept acceptTCP setKA setKAP).2 = none) ∧
    (∀ (tc : TCPConn) (e : String), acceptTCP = .ok tc →
      setKA tc true = some e →
      tcpKeepAliveAccept acceptTCP setKA setKAP = (none, some e)) ∧
    (∀ (tc : TCPConn) (e : String), acceptTCP = .ok tc →
      setKA tc true = none → setKAP tc keepAlivePeriodNs = some e →
      tcpKeepAliveAccept acceptTCP setKA setKAP = (none, some e)) := by
  refine ⟨?_, ?_, ?_⟩
  · unfold tcpKeepAliveAccept
    cases acceptTCP with
    | error e => simp
    | ok tc =>
        cases hka : setKA tc true with
        | some e => simp [hka]
        | none =>
            cases hkap : setKAP tc keepAlivePeriodNs with
            | some e => simp [hka, hkap]
            | none => simp [hka, hkap]
  · intro tc e hok hka
    subst hok
    exact tcpKeepAliveAccept_ka_fail setKA setKAP tc e hka
  · intro tc e hok hka hkap
    subst hok
    exact tcpKeepAliveAccept_kap_fail setKA setKAP tc e hka hkap

/-- Witness for C10: a setter that fails yields `(none, some e)`, which also
instantiates the iff. -/
theorem C10_accept_conn_iff_no_error_witness :
    tcpKeepAliveAccept (.ok ⟨0⟩) (fun _ _ => some "setsockopt")
      (fun _ _ => none) = (none, some "setsockopt") :=
  (C10_accept_conn_iff_no_error (.ok ⟨0⟩) (fun _ _ => some "setsockopt")
    (fun _ _ => none)).2.1 ⟨0⟩ "setsockopt" rfl rfl

/-! ## The tcp+sni accept loop (`listenAndServeTCP`, src/listen.go
lines 99-112)

```go
for {
    conn, err := ln.Accept()
    if err != nil {
        select {
        case <-quit:
            return
        default:
            exit.Fatal("[FATAL] ", err)
        }
    }
    go h.Serve(conn)
}
```
One loop iteration is embedded as a function of the quit-channel state and
the accept result. -/

/-- Outcome of one accept-loop iteration: `exitLoop` is the `return` on the
shutdown path; `fatal e` is `exit.Fatal` (terminates the whole process);
`served c` is `go h.Serve(conn)` followed by the next iteration. -/
inductive LoopOutcome where
  | exitLoop
  | fatal (e : String)
  | served (c : Option TCPConn)
deriving DecidableEq, Repr

/-- One iteration of the accept loop, given whether the `quit` channel is
closed (`select` with `default` observes exactly that) and the result of
`ln.Accept()`. -/
def acceptLoopStep (quitFired : Bool) (r : Option TCPConn × Option String) :
    LoopOutcome :=
  match r.2 with
  | some e => if quitFired then .exitLoop else .fatal e
  | none => .served r.1

/-- C8: when the shutdown signal has fired and the closed socket makes
`Accept` fail, the accept loop observes the fired signal and exits without
treating the error as fatal; an accept error while the signal has not fired
is treated as fatal. -/
theorem C8_shutdown_accept_errors_suppressed
    (r : Option TCPConn × Option String) (e : String) (h : r.2 = some e) :
    acceptLoopStep true r = .exitLoop ∧
    acceptLoopStep false r = .fatal e := by
  unfold acceptLoopStep
  rw [h]
  exact ⟨rfl, rfl⟩

/-- Witness for C8: the `use of closed network connection` error after the
socket is closed during drain exits the loop; the same error without the
signal fired is fatal. -/
theorem C8_shutdown_accept_errors_suppressed_witness :
    acceptLoopStep true (none, some "use of closed network connection") =
      .exitLoop ∧
    acceptLoopStep false (none, some "use of closed network connection") =
      .fatal "use of closed network connection" :=
  C8_shutdown_accept_errors_suppressed
    (none, some "use of closed network connection")
    "use of closed network connection" rfl

/-- Counterexample to C5 as stated: a keep-alive `setsockopt` failure on a
freshly accepted connection, while the shutdown signal has not fired, drives
the accept loop into `exit.Fatal` — the process terminates, so it is false
that the accept loop and its sibling listeners keep running. -/
theorem C5_counterexample :
    acceptLoopStep false
      (tcpKeepAliveAccept (.ok ⟨0⟩) (fun _ _ => some "setsockopt")
        (fun _ _ => none)) = .fatal "setsockopt" := by
  rfl

/-- C5 (amended): when setting either keep-alive option on a freshly
accepted connection fails, the failure is surfaced as an accept error for
that connection — the wrapper returns `(nil, err)` and the connection is
not handed to the caller — but the tcp+sni accept loop treats any accept
error while the shutdown signal has not fired as fatal to the whole
process, so the listener (and with it every sibling listener) does stop;
only during shutdown is the error suppressed. -/
theorem C5_keepalive_failure_is_fatal (acceptTCP : Except String TCPConn)
    (setKA : TCPConn → Bool → Option String)
    (setKAP : TCPConn → Nat → Option String) (tc : TCPConn) (e : String)
    (hok : acceptTCP = .ok tc)
    (hfail : setKA tc true = some e ∨
      (setKA tc true = none ∧ setKAP tc keepAlivePeriodNs = some e)) :
    tcpKeepAliveAccept acceptTCP setKA setKAP = (none, some e) ∧
    acceptLoopStep false (tcpKeepAliveAccept acceptTCP setKA setKAP) =
      .fatal e ∧
    acceptLoopStep true (tcpKeepAliveAccept acceptTCP setKA setKAP) =
      .exitLoop := by
  subst hok
  have hres : tcpKeepAliveAccept (.ok tc) setKA setKAP = (none, some e) := by
    rcases hfail with hka | ⟨hka, hkap⟩
    · exact tcpKeepAliveAccept_ka_fail setKA setKAP tc e hka
    · exact tcpKeepAliveAccept_kap_fail setKA setKAP tc e hka hkap
  refine ⟨hres, ?_, ?_⟩ <;> rw [hres] <;> rfl

/-- Witness for the amended C5: a failing `SetKeepAlivePeriod` is fatal to
the loop outside shutdown. -/
theorem C5_keepalive_failure_is_fatal_witness :
    acceptLoopStep false
      (tcpKeepAliveAccept (.ok ⟨1⟩) (fun _ _ => none)
        (fun _ _ => some "period")) = .fatal "period" :=
  (C5_keepalive_failure_is_fatal (.ok ⟨1⟩) (fun _ _ => none)
    (fun _ _ => some "period") ⟨1⟩ "period" rfl
    (Or.inr ⟨rfl, rfl⟩)).2.1

/-! ## Shutdown Broadcast (`quit`, src/listen.go lines 18-22)

```go
var quit = make(chan bool)

func init() {
    exit.Listen(func(os.Signal) { close(quit) })
}
```
The firing mechanism lives in the repository's `exit` package, which is not
part of the source slice; only its caller is. -/

/-- The Shutdown Broadcast: a one-shot broadcast channel, represented by
whether it has been closed. Observing it (`<-quit` or the `select` default
probe) is non-destructive: it is the pure projection `fired`. -/
structure ShutdownBroadcast where
  fired : Bool
deriving DecidableEq, Repr

/-- Modelled from the spec: the firing mechanism (`exit.Listen`, from the
repository's `exit` package, which is outside the provided source) invokes
`close(quit)` so that the channel is "closed exactly once" (§4.6); firing is
triggered by an OS signal or administrative command and is idempotent, so a
fire request on an already-fired broadcast leaves it fired without closing
the channel again. -/
def fireShutdown (b : ShutdownBroadcast) : ShutdownBroadcast :=
  if b.fired then b else { fired := true }

/-- A (late) observer of the broadcast: non-destructive read of the fired
state, as reading from a closed channel always succeeds immediately. -/
def observeFired (b : ShutdownBroadcast) : Bool :=
  b.fired

/-- C4: firing the Shutdown Broadcast is idempotent — firing a second time
changes nothing (in particular it cannot panic by re-closing the channel,
nor block) — and once fired it stays fired, so every late observer still
sees it as fired. -/
theorem C4_fire_idempotent (b : ShutdownBroadcast) :
    fireShutdown (fireShutdown b) = fireShutdown b ∧
    (fireShutdown b).fired = true ∧
    observeFired (fireShutdown b) = true ∧
    (b.fired = true → fireShutdown b = b) := by
  unfold fireShutdown observeFired
  cases b with
  | mk fired => cases fired <;> simp

/-- Witness for C4: firing an unfired broadcast twice equals firing it
once, and the result reads as fired. -/
theorem C4_fire_idempotent_witness :
    fireShutdown (fireShutdown ⟨false⟩) = fireShutdown ⟨false⟩ ∧
    observeFired (fireShutdown ⟨false⟩) = true := by
  have h := C4_fire_idempotent ⟨false⟩
  exact ⟨h.1, h.2.2.1⟩

end Fabio
